import Mathlib

/-
  Shallow embedding of the Home Assistant auth-provider framework:
  - homeassistant/auth/providers/__init__.py  (AuthProvider base class,
    auth_provider_from_config, load_auth_provider_module)
  - homeassistant/auth/providers/trusted_networks.py
    (TrustedNetworksAuthProvider, LoginFlow)

  Python dicts over string keys are represented as association lists with
  first-match lookup; dict construction by comprehension uses an upsert
  (later assignment to the same key overwrites the value in place), matching
  Python dict semantics. Python exceptions are modelled with `Except` over
  an explicit error vocabulary; stateful store operations thread an
  explicit `AuthStore` value. IP addresses are natural numbers and network
  ranges are CIDR-style prefixes.
-/

namespace HomeAssistant

set_option autoImplicit false

/-- First-match lookup in an association list, the model of `d.get(k)` /
`d[k]` on a Python dict (for dicts built by `buildDict` the keys are unique,
so first-match agrees with Python's last-write-wins value semantics). -/
def dget {α : Type} : List (String × α) → String → Option α
  | [], _ => none
  | (k', v) :: rest, k => if k' = k then some v else dget rest k

/-- Insert-or-overwrite of one key, the model of `d[k] = v` on a Python dict. -/
def upsert {α : Type} : List (String × α) → String → α → List (String × α)
  | [], k, v => [(k, v)]
  | (k', v') :: rest, k, v =>
    if k' = k then (k, v) :: rest else (k', v') :: upsert rest k v

/-- Build a dict from a list of key-value pairs in order, the model of a
Python dict comprehension. -/
def buildDict {α : Type} (l : List (String × α)) : List (String × α) :=
  l.foldl (fun d kv => upsert d kv.1 kv.2) []

/-- String-to-string dict, the type of `config`, credential `data`,
form `errors` and flow `user_input`. -/
abbrev Dict := List (String × String)

/-- Python exceptions that the embedded code can raise. -/
inductive HAErr where
  | invalidAuth
  | invalidUser
  | keyError
  | typeError
  | assertionError
deriving DecidableEq

/-- `homeassistant.auth.models.Credentials`. -/
structure Credentials where
  auth_provider_type : String
  auth_provider_id : Option String
  data : Dict
deriving DecidableEq

/-- `homeassistant.auth.models.User` (external Store entity; the fields the
providers read). -/
structure User where
  id : String
  name : Option String
  system_generated : Bool
  is_active : Bool
  credentials : List Credentials
deriving DecidableEq

/-- Modelled from the spec: the external Store adapter's visible state, a
list of user records; `getUsers` returns them and `linkUser` persists a
credential onto a user (§6 External Interfaces). -/
structure AuthStore where
  users : List User
deriving DecidableEq

/-- A CIDR-style network range (external HTTP collaborator's data). -/
structure IPNetwork where
  addr : Nat
  prefixLen : Nat
deriving DecidableEq

/-- Membership of an address in a CIDR-style range: the upper `prefixLen`
bits of a 32-bit address agree. -/
def IPNetwork.contains (n : IPNetwork) (ip : Nat) : Bool :=
  ip / 2 ^ (32 - n.prefixLen) = n.addr / 2 ^ (32 - n.prefixLen)

/-- The `hass.http` component: holds the configured trusted networks. -/
structure HttpComponent where
  trusted_networks : List IPNetwork
deriving DecidableEq

/-- The slice of the `hass` object the providers read: `getattr(self.hass,
'http', None)` yields `none` when the HTTP component is absent. -/
structure Hass where
  http : Option HttpComponent
deriving DecidableEq

/-- `AuthProvider.__init__`: holds `hass` and the validated `config` dict.
`DEFAULT_TITLE` is a class attribute ('Unnamed auth provider' on the base
class, 'Trusted Networks' on `TrustedNetworksAuthProvider`), carried here as
a field of the instance. The Store is threaded explicitly through the
stateful operations instead of being stored on the instance. -/
structure AuthProvider where
  hass : Hass
  config : Dict
  defaultTitle : String
deriving DecidableEq

/-- `AuthProvider.id`: `self.config.get(CONF_ID)`. -/
def AuthProvider.id (p : AuthProvider) : Option String :=
  dget p.config "id"

/-- `AuthProvider.type`: `self.config[CONF_TYPE]`. The schema
(`AUTH_PROVIDER_SCHEMA`) requires the `type` key, so the default for a
missing key is never reached on validated configs; theorems that depend on
the type carry the presence of the key as a hypothesis. -/
def AuthProvider.type (p : AuthProvider) : String :=
  (dget p.config "type").getD ""

/-- `AuthProvider.name`: `self.config.get(CONF_NAME, self.DEFAULT_TITLE)`. -/
def AuthProvider.name (p : AuthProvider) : String :=
  (dget p.config "name").getD p.defaultTitle

/-- `AuthProvider.async_credentials`: all credentials across all the
Store's users whose `(auth_provider_type, auth_provider_id)` equal this
instance's; a pure read of the Store. -/
def AuthProvider.async_credentials (p : AuthProvider) (s : AuthStore) :
    List Credentials :=
  s.users.flatMap fun u =>
    u.credentials.filter fun c =>
      c.auth_provider_type == p.type && c.auth_provider_id == p.id

/-- `AuthProvider.async_create_credentials`: pure construction stamping this
instance's `(type, id)`. -/
def AuthProvider.async_create_credentials (p : AuthProvider) (data : Dict) :
    Credentials :=
  { auth_provider_type := p.type, auth_provider_id := p.id, data := data }

/-- The `for user in users` loop of `async_get_or_create_credentials`:
index of the first user that is not system generated, is active, and has
the requested id. -/
def firstTrustedIdx : List User → String → Option Nat
  | [], _ => none
  | u :: rest, uid =>
    if u.system_generated = false ∧ u.is_active = true ∧ u.id = uid then
      some 0
    else (firstTrustedIdx rest uid).map (· + 1)

/-- The inner `for credential in await self.async_credentials()` loop:
first credential whose `data['user_id']` equals the requested id; a
credential whose data lacks the `user_id` key raises `KeyError`. -/
def findMatchingCred : List Credentials → String → Except HAErr (Option Credentials)
  | [], _ => .ok none
  | c :: rest, uid =>
    match dget c.data "user_id" with
    | none => .error .keyError
    | some v => if v = uid then .ok (some c) else findMatchingCred rest uid

/-- Modelled from the spec: the Store adapter's `linkUser(user, credentials)`
persists the association (§6); here it appends the credential to the
credential list of the user at the given position. -/
def linkAt : List User → Nat → Credentials → List User
  | [], _, _ => []
  | u :: rest, 0, c => { u with credentials := u.credentials ++ [c] } :: rest
  | u :: rest, n + 1, c => u :: linkAt rest n c

/-- `TrustedNetworksAuthProvider.async_get_or_create_credentials`: reads
`flow_result['user']` (KeyError when absent), scans the Store's users for
the first non-system active user with that id (raising `InvalidUserError`
when none exists), then returns this provider's first credential whose
`data['user_id']` matches, or creates and links a fresh one. Returns the
outcome together with the resulting Store state. -/
def AuthProvider.async_get_or_create_credentials (p : AuthProvider)
    (s : AuthStore) (flow_result : Dict) :
    Except HAErr Credentials × AuthStore :=
  match dget flow_result "user" with
  | none => (.error .keyError, s)
  | some user_id =>
    match firstTrustedIdx s.users user_id with
    | none => (.error .invalidUser, s)
    | some i =>
      match findMatchingCred (p.async_credentials s) user_id with
      | .error e => (.error e, s)
      | .ok (some c) => (.ok c, s)
      | .ok none =>
        let cred := p.async_create_credentials [("user_id", user_id)]
        (.ok cred, ⟨linkAt s.users i cred⟩)

/-- `TrustedNetworksAuthProvider.async_validate_access`: raises
`InvalidAuthError` when the HTTP component is absent or its
`trusted_networks` list is empty, or when the address is in none of the
ranges. A `none` address (as produced by `context.get('ip_address')` on a
context without that key) raises `TypeError` at the membership test. Pure:
it touches no provider or store state. -/
def async_validate_access (hass : Hass) (ip_address : Option Nat) :
    Except HAErr Unit :=
  match hass.http with
  | none => .error .invalidAuth
  | some http =>
    if http.trusted_networks.isEmpty then .error .invalidAuth
    else
      match ip_address with
      | none => .error .typeError
      | some ip =>
        if http.trusted_networks.any (fun n => n.contains ip) then .ok ()
        else .error .invalidAuth

/-- `LoginFlow.__init__`: the trusted-networks login flow's immutable
state. -/
structure LoginFlow where
  auth_provider : AuthProvider
  ip_address : Option Nat
  available_users : List (String × Option String)
deriving DecidableEq

/-- `TrustedNetworksAuthProvider.async_credential_flow`: asserts the
context is present, reads the Store's users, filters to non-system active
users building the `{user.id: user.name}` dict, and seeds a `LoginFlow`
with `context.get('ip_address')`. Flow context is a dict whose relevant
value is an address. -/
def AuthProvider.async_credential_flow (p : AuthProvider) (s : AuthStore)
    (context : Option (List (String × Nat))) : Except HAErr LoginFlow :=
  match context with
  | none => .error .assertionError
  | some ctx =>
    .ok { auth_provider := p
          ip_address := dget ctx "ip_address"
          available_users :=
            buildDict ((s.users.filter fun u =>
              !u.system_generated && u.is_active).map fun u => (u.id, u.name)) }

/-- The `data_schema` argument of `async_show_form`: either absent (`None`)
or a single `user` field selecting among `available_users` (`vol.Schema({'user':
vol.In(available_users)})`). -/
inductive FormSchema where
  | userSelect (options : List (String × Option String))
deriving DecidableEq

/-- The two results `data_entry_flow` steps can produce:
`async_show_form(step_id, data_schema, errors)` and
`async_create_entry(title, data)`. -/
inductive FlowResult where
  | showForm (step_id : String) (data_schema : Option FormSchema)
      (errors : Dict)
  | createEntry (title : String) (data : Dict)
deriving DecidableEq

/-- `LoginFlow.async_step_init`: validates access (catching only
`InvalidAuthError`, which yields the schema-less error form); with no input
shows the selection form; with input reads `user_input['user']` (KeyError
when the key is absent) and either creates the entry (valid user) or
re-shows the selection form with the `invalid_auth` error. -/
def async_step_init (fl : LoginFlow) (user_input : Option Dict) :
    Except HAErr FlowResult :=
  match async_validate_access fl.auth_provider.hass fl.ip_address with
  | .error .invalidAuth =>
    .ok (.showForm "init" none [("base", "invalid_auth")])
  | .error e => .error e
  | .ok _ =>
    match user_input with
    | none =>
      .ok (.showForm "init" (some (.userSelect fl.available_users)) [])
    | some d =>
      match dget d "user" with
      | none => .error .keyError
      | some uid =>
        if (dget fl.available_users uid).isSome then
          .ok (.createEntry fl.auth_provider.name d)
        else
          .ok (.showForm "init" (some (.userSelect fl.available_users))
                [("base", "invalid_auth")])

/-- The environment of the provider loader: per-type outcomes of the
external collaborators of `load_auth_provider_module` and
`auth_provider_from_config` — whether `importlib.import_module` finds the
provider module, `hass.config.skip_pip`, whether the module declares
`REQUIREMENTS`, the module's `CONFIG_SCHEMA` (returning the validated
config, or `none` on `vol.Invalid`), whether the type is registered in
`AUTH_PROVIDERS`, and the provider class's `DEFAULT_TITLE`. -/
structure LoaderEnv where
  importOk : String → Bool
  skipPip : Bool
  hasRequirements : String → Bool
  schemaCheck : String → Dict → Option Dict
  registered : String → Bool
  defaultTitleOf : String → String

/-- Outcome of one `load_auth_provider_module` call: the module (named by
its provider type) or `none`, the resulting `hass.data[DATA_REQS]` cache
(`none` when the key is still unset), and whether the external installer
(`requirements.async_process_requirements`) was invoked during the call. -/
structure LoadResult where
  moduleFound : Option String
  processed : Option (List String)
  installerCalled : Bool
deriving DecidableEq

/-- `load_auth_provider_module`: import the module (warning + `None` on
ImportError); skip installation when `skip_pip` is set or the module has no
`REQUIREMENTS`; otherwise consult the `hass.data[DATA_REQS]` cache — a
cached type returns the module without reinstalling, an uncached one runs
the installer, caching the type only on success (a failed install leaves it
uncached and returns `None`). `installOk` is the installer's answer for
this call. -/
def load_auth_provider_module (env : LoaderEnv) (installOk : Bool)
    (provider : String) (st : Option (List String)) : LoadResult :=
  if env.importOk provider = false then ⟨none, st, false⟩
  else if env.skipPip || !env.hasRequirements provider then
    ⟨some provider, st, false⟩
  else
    match st with
    | some procd =>
      if provider ∈ procd then ⟨some provider, st, false⟩
      else if installOk then ⟨some provider, some (provider :: procd), true⟩
      else ⟨none, some procd, true⟩
    | none =>
      if installOk then ⟨some provider, some [provider], true⟩
      else ⟨none, some [], true⟩

/-- A sequence of `load_auth_provider_module` calls (provider type and the
installer's answer for that call), threading the `hass.data[DATA_REQS]`
cache. -/
def runLoads (env : LoaderEnv) : List (String × Bool) → Option (List String) →
    Option (List String)
  | [], st => st
  | (p, ok) :: rest, st =>
    runLoads env rest (load_auth_provider_module env ok p st).processed

/-- The contents of the `hass.data[DATA_REQS]` cache (empty when unset). -/
def procSet (st : Option (List String)) : List String :=
  st.getD []

/-- `auth_provider_from_config`: reads `config[CONF_TYPE]` (KeyError when
the key is absent), loads the module (returning `none` when loading
failed), validates the config against the module's `CONFIG_SCHEMA`
(logging and returning `none` on `vol.Invalid`), and constructs the
provider through the `AUTH_PROVIDERS` registry (`AUTH_PROVIDERS[name]`
raises KeyError for an unregistered name). Returns the outcome together
with the resulting requirements cache. -/
def auth_provider_from_config (env : LoaderEnv) (hass : Hass)
    (installOk : Bool) (config : Dict) (st : Option (List String)) :
    Except HAErr (Option AuthProvider × Option (List String)) :=
  match dget config "type" with
  | none => .error .keyError
  | some t =>
    let r := load_auth_provider_module env installOk t st
    match r.moduleFound with
    | none => .ok (none, r.processed)
    | some _ =>
      match env.schemaCheck t config with
      | none => .ok (none, r.processed)
      | some cfg =>
        if env.registered t then
          .ok (some ⟨hass, cfg, env.defaultTitleOf t⟩, r.processed)
        else .error .keyError

/-! Helper lemmas about the embedded operations. -/

theorem firstTrustedIdx_eq_none (us : List User) (U : String)
    (h : ∀ u ∈ us, ¬(u.system_generated = false ∧ u.is_active = true ∧ u.id = U)) :
    firstTrustedIdx us U = none := by
  induction us with
  | nil => rfl
  | cons u rest ih =>
    have h1 := h u (List.mem_cons_self u rest)
    simp only [firstTrustedIdx, if_neg h1]
    rw [ih fun v hv => h v (List.mem_cons_of_mem _ hv)]
    rfl

/-- C3: async_validate_access fails with InvalidAuth exactly when the HTTP
component is absent, the configured trusted-network list is empty, or the
address is in none of the configured ranges; otherwise it succeeds. Being a
pure function of the hass configuration and the address, it performs no
side effects on provider or store state. -/
theorem validate_access_invalid_auth_iff (hass : Hass) (ip : Nat) :
    (async_validate_access hass (some ip) = .ok () ∨
     async_validate_access hass (some ip) = .error .invalidAuth)
    ∧ (async_validate_access hass (some ip) = .error .invalidAuth ↔
        hass.http = none ∨ ∃ http, hass.http = some http ∧
          (http.trusted_networks = [] ∨
           ∀ n ∈ http.trusted_networks, n.contains ip = false)) := by
  cases hh : hass.http with
  | none => simp [async_validate_access, hh]
  | some http =>
    by_cases he : http.trusted_networks.isEmpty
    · have he' : http.trusted_networks = [] := by
        simpa [List.isEmpty_iff] using he
      simp [async_validate_access, hh, he']
    · have he' : http.trusted_networks ≠ [] := by
        simpa [List.isEmpty_iff] using he
      by_cases ha : http.trusted_networks.any (fun n => n.contains ip) = true
      · obtain ⟨n, hn, hcn⟩ := List.any_eq_true.mp ha
        have hok : async_validate_access hass (some ip) = .ok () := by
          simp [async_validate_access, hh, he, ha]
        refine ⟨Or.inl hok, ?_⟩
        rw [hok]
        apply iff_of_false
        · intro hcontra; cases hcontra
        · rintro (h0 | ⟨h2, heq, h3 | h4⟩)
          · cases h0
          · injection heq with heq; subst heq; exact he' h3
          · injection heq with heq; subst heq
            rw [h4 n hn] at hcn; cases hcn
      · have herr : async_validate_access hass (some ip) =
            .error .invalidAuth := by
          simp only [Bool.not_eq_true] at ha
          simp [async_validate_access, hh, he, ha]
        refine ⟨Or.inr herr, ?_⟩
        rw [herr]
        apply iff_of_true rfl
        right
        refine ⟨http, rfl, Or.inr fun n hn => ?_⟩
        rcases Bool.eq_false_or_eq_true (n.contains ip) with h1 | h0
        · exact absurd (List.any_eq_true.mpr ⟨n, hn, h1⟩) ha
        · exact h0

/-- C5: when access validation fails with InvalidAuth (for example because
no trusted ranges are configured), async_step_init returns the re-shown
init form with error base = invalid_auth and a data_schema of None — no
user-selection field — regardless of whether user input was supplied. -/
theorem step_init_access_denied (fl : LoginFlow)
    (hv : async_validate_access fl.auth_provider.hass fl.ip_address =
      .error .invalidAuth) :
    ∀ user_input, async_step_init fl user_input =
      .ok (.showForm "init" none [("base", "invalid_auth")]) := by
  intro user_input
  simp [async_step_init, hv]

theorem step_init_access_denied_witness :
    async_validate_access
      (LoginFlow.mk ⟨⟨none⟩, [("type", "trusted_networks")], "Trusted Networks"⟩
        none []).auth_provider.hass
      (LoginFlow.mk ⟨⟨none⟩, [("type", "trusted_networks")], "Trusted Networks"⟩
        none []).ip_address = .error .invalidAuth ∧
    async_step_init
      ⟨⟨⟨none⟩, [("type", "trusted_networks")], "Trusted Networks"⟩, none, []⟩
      (some [("user", "abc")]) =
      .ok (.showForm "init" none [("base", "invalid_auth")]) :=
  ⟨rfl, step_init_access_denied
    ⟨⟨⟨none⟩, [("type", "trusted_networks")], "Trusted Networks"⟩, none, []⟩
    rfl (some [("user", "abc")])⟩

/-- C4: when access validation succeeds and user input carrying a `user`
key is present, async_step_init re-shows the init form with error base =
invalid_auth and the user-selection schema still offered when the chosen id
is not a key of available_users, and terminates with an entry titled with
the provider's display name and carrying the input unmodified when it is. -/
theorem step_init_with_input (fl : LoginFlow) (d : Dict) (uid : String)
    (hv : async_validate_access fl.auth_provider.hass fl.ip_address = .ok ())
    (hu : dget d "user" = some uid) :
    (dget fl.available_users uid = none →
       async_step_init fl (some d) =
         .ok (.showForm "init" (some (.userSelect fl.available_users))
               [("base", "invalid_auth")]))
    ∧ ((dget fl.available_users uid).isSome = true →
       async_step_init fl (some d) =
         .ok (.createEntry fl.auth_provider.name d)) := by
  constructor
  · intro hnone
    simp [async_step_init, hv, hu, hnone]
  · intro hsome
    simp [async_step_init, hv, hu, hsome]

theorem step_init_with_input_witness :
    (async_validate_access
        (LoginFlow.mk ⟨⟨some ⟨[⟨5, 32⟩]⟩⟩, [("type", "trusted_networks")],
          "Trusted Networks"⟩ (some 5) [("abc", some "Alice")]).auth_provider.hass
        (LoginFlow.mk ⟨⟨some ⟨[⟨5, 32⟩]⟩⟩, [("type", "trusted_networks")],
          "Trusted Networks"⟩ (some 5) [("abc", some "Alice")]).ip_address = .ok ()
     ∧ dget [("user", "abc")] "user" = some "abc")
    ∧ (dget [("abc", some "Alice")] "abc").isSome = true
    ∧ async_step_init
        ⟨⟨⟨some ⟨[⟨5, 32⟩]⟩⟩, [("type", "trusted_networks")], "Trusted Networks"⟩,
          some 5, [("abc", some "Alice")]⟩ (some [("user", "abc")]) =
        .ok (.createEntry "Trusted Networks" [("user", "abc")]) :=
  ⟨⟨rfl, rfl⟩, rfl,
    (step_init_with_input
      ⟨⟨⟨some ⟨[⟨5, 32⟩]⟩⟩, [("type", "trusted_networks")], "Trusted Networks"⟩,
        some 5, [("abc", some "Alice")]⟩
      [("user", "abc")] "abc" rfl rfl).2 rfl⟩

/-- C9: when access validation succeeds, async_step_init with user input
present but lacking the `user` key raises KeyError — an uncaught crash
rather than a re-shown form — and the invalid_auth form-error path is taken
exactly when the `user` key is present but maps to an id that is not a key
of available_users. -/
theorem step_init_missing_user_key (fl : LoginFlow) (d : Dict)
    (hv : async_validate_access fl.auth_provider.hass fl.ip_address = .ok ()) :
    (dget d "user" = none → async_step_init fl (some d) = .error .keyError)
    ∧ (∀ uid, dget d "user" = some uid →
        (async_step_init fl (some d) =
            .ok (.showForm "init" (some (.userSelect fl.available_users))
                  [("base", "invalid_auth")])
         ↔ dget fl.available_users uid = none)) := by
  constructor
  · intro h
    simp [async_step_init, hv, h]
  · intro uid h
    cases hk : dget fl.available_users uid with
    | none => simp [async_step_init, hv, h, hk]
    | some v => simp [async_step_init, hv, h, hk]

theorem step_init_missing_user_key_witness :
    async_validate_access
      (LoginFlow.mk ⟨⟨some ⟨[⟨5, 32⟩]⟩⟩, [("type", "trusted_networks")],
        "Trusted Networks"⟩ (some 5) [("abc", some "Alice")]).auth_provider.hass
      (LoginFlow.mk ⟨⟨some ⟨[⟨5, 32⟩]⟩⟩, [("type", "trusted_networks")],
        "Trusted Networks"⟩ (some 5) [("abc", some "Alice")]).ip_address = .ok ()
    ∧ dget [("not_user", "x")] "user" = none
    ∧ async_step_init
        ⟨⟨⟨some ⟨[⟨5, 32⟩]⟩⟩, [("type", "trusted_networks")], "Trusted Networks"⟩,
          some 5, [("abc", some "Alice")]⟩ (some [("not_user", "x")]) =
        .error .keyError :=
  ⟨rfl, rfl,
    (step_init_missing_user_key
      ⟨⟨⟨some ⟨[⟨5, 32⟩]⟩⟩, [("type", "trusted_networks")], "Trusted Networks"⟩,
        some 5, [("abc", some "Alice")]⟩
      [("not_user", "x")] rfl).1 rfl⟩

/-- C2: when no user in the Store is simultaneously non-system-generated,
active, and carrying the requested id, async_get_or_create_credentials
fails with InvalidUser and leaves the Store unchanged — it creates and
links no credentials. -/
theorem get_or_create_credentials_invalid_user (p : AuthProvider)
    (s : AuthStore) (U : String)
    (h : ∀ u ∈ s.users,
      ¬(u.system_generated = false ∧ u.is_active = true ∧ u.id = U)) :
    p.async_get_or_create_credentials s [("user", U)] =
      (.error .invalidUser, s) := by
  simp [AuthProvider.async_get_or_create_credentials, dget,
    firstTrustedIdx_eq_none s.users U h]

theorem get_or_create_credentials_invalid_user_witness :
    (∀ u ∈ (AuthStore.mk [⟨"abc", some "Alice", true, true, []⟩]).users,
      ¬(u.system_generated = false ∧ u.is_active = true ∧ u.id = "abc"))
    ∧ AuthProvider.async_get_or_create_credentials
        ⟨⟨none⟩, [("type", "trusted_networks")], "Trusted Networks"⟩
        ⟨[⟨"abc", some "Alice", true, true, []⟩]⟩ [("user", "abc")] =
        (.error .invalidUser, ⟨[⟨"abc", some "Alice", true, true, []⟩]⟩) :=
  ⟨by decide,
    get_or_create_credentials_invalid_user _ _ "abc" (by decide)⟩

/-- C6: async_credentials returns exactly the credentials, across all the
Store's users' credential lists, whose auth_provider_type equals this
instance's type and whose auth_provider_id equals this instance's id — in
particular a credential of the same type but a different id is excluded.
It is a pure read of the Store and performs no writes. -/
theorem async_credentials_exactly_matching (p : AuthProvider) (s : AuthStore)
    (τ : String) (c : Credentials) (ht : dget p.config "type" = some τ) :
    c ∈ p.async_credentials s ↔
      ((∃ u ∈ s.users, c ∈ u.credentials) ∧
       c.auth_provider_type = τ ∧ c.auth_provider_id = p.id) := by
  have hty : p.type = τ := by simp [AuthProvider.type, ht]
  simp only [AuthProvider.async_credentials, List.mem_flatMap,
    List.mem_filter, Bool.and_eq_true, beq_iff_eq, hty]
  constructor
  · rintro ⟨u, hu, hc, h1, h2⟩
    exact ⟨⟨u, hu, hc⟩, h1, h2⟩
  · rintro ⟨⟨u, hu, hc⟩, h1, h2⟩
    exact ⟨u, hu, hc, h1, h2⟩

theorem async_credentials_exactly_matching_witness :
    dget ([("type", "trusted_networks"), ("id", "x")] : Dict) "type" =
      some "trusted_networks"
    ∧ (Credentials.mk "trusted_networks" (some "x") [("user_id", "abc")] ∈
        AuthProvider.async_credentials
          ⟨⟨none⟩, [("type", "trusted_networks"), ("id", "x")], "Trusted Networks"⟩
          ⟨[⟨"abc", some "Alice", false, true,
              [⟨"trusted_networks", some "x", [("user_id", "abc")]⟩,
               ⟨"trusted_networks", some "y", [("user_id", "abc")]⟩]⟩]⟩ ↔
        ((∃ u ∈ (AuthStore.mk [⟨"abc", some "Alice", false, true,
              [⟨"trusted_networks", some "x", [("user_id", "abc")]⟩,
               ⟨"trusted_networks", some "y", [("user_id", "abc")]⟩]⟩]).users,
            Credentials.mk "trusted_networks" (some "x") [("user_id", "abc")] ∈
              u.credentials) ∧
         Credentials.auth_provider_type
            ⟨"trusted_networks", some "x", [("user_id", "abc")]⟩ =
            "trusted_networks" ∧
         Credentials.auth_provider_id
            ⟨"trusted_networks", some "x", [("user_id", "abc")]⟩ =
            AuthProvider.id ⟨⟨none⟩,
              [("type", "trusted_networks"), ("id", "x")], "Trusted Networks"⟩)) :=
  ⟨rfl, async_credentials_exactly_matching _ _ "trusted_networks" _ rfl⟩

/-- C8 counterexample: a credential-flow call whose context is present but
lacks the ip_address key does not fail — it succeeds and returns a flow —
refuting the claim that every call whose flow context lacks an ip_address
crashes with an assertion. -/
theorem credential_flow_missing_ip_counterexample :
    dget [("other_key", (7 : Nat))] "ip_address" = none
    ∧ AuthProvider.async_credential_flow
        ⟨⟨none⟩, [("type", "trusted_networks")], "Trusted Networks"⟩ ⟨[]⟩
        (some [("other_key", 7)]) =
        .ok ⟨⟨⟨none⟩, [("type", "trusted_networks")], "Trusted Networks"⟩,
          none, []⟩ :=
  ⟨rfl, rfl⟩

/-- C8 (amended): async_credential_flow asserts only that the flow context
itself is present — a missing context is an assertion failure (hard
crash); a context that is present but lacks the ip_address key proceeds
without failing, seeding the flow with an absent ip address. -/
theorem credential_flow_asserts_context_only (p : AuthProvider)
    (s : AuthStore) :
    p.async_credential_flow s none = .error .assertionError
    ∧ ∀ ctx, ∃ fl, p.async_credential_flow s (some ctx) = .ok fl ∧
        fl.ip_address = dget ctx "ip_address" :=
  ⟨rfl, fun _ => ⟨_, rfl, rfl⟩⟩

/-- C10: auth_provider_from_config on a configuration lacking the `type`
key raises KeyError rather than logging and returning none; the documented
isolate-and-return-none behavior applies to unknown provider types (import
failure) and to schema validation failures on a loaded module. -/
theorem auth_provider_from_config_missing_type (env : LoaderEnv)
    (hass : Hass) (installOk : Bool) (config : Dict)
    (st : Option (List String)) (t : String) :
    (dget config "type" = none →
       auth_provider_from_config env hass installOk config st =
         .error .keyError)
    ∧ (dget config "type" = some t → env.importOk t = false →
       auth_provider_from_config env hass installOk config st =
         .ok (none, st))
    ∧ (dget config "type" = some t →
       (load_auth_provider_module env installOk t st).moduleFound.isSome = true →
       env.schemaCheck t config = none →
       auth_provider_from_config env hass installOk config st =
         .ok (none, (load_auth_provider_module env installOk t st).processed)) := by
  refine ⟨fun h => ?_, fun h hi => ?_, fun h hm hs => ?_⟩
  · simp [auth_provider_from_config, h]
  · simp [auth_provider_from_config, h, load_auth_provider_module, hi]
  · obtain ⟨m, hm'⟩ := Option.isSome_iff_exists.mp hm
    simp [auth_provider_from_config, h, hm', hs]

theorem auth_provider_from_config_missing_type_witness :
    (dget ([] : Dict) "type" = none
     ∧ auth_provider_from_config
        ⟨fun _ => true, false, fun _ => true, fun _ _ => none,
          fun _ => true, fun _ => "T"⟩ ⟨none⟩ true [] none = .error .keyError)
    ∧ (dget ([("type", "no_such")] : Dict) "type" = some "no_such"
       ∧ auth_provider_from_config
          ⟨fun _ => false, false, fun _ => true, fun _ _ => none,
            fun _ => true, fun _ => "T"⟩ ⟨none⟩ true [("type", "no_such")] none =
          .ok (none, none))
    ∧ (dget ([("type", "trusted_networks")] : Dict) "type" =
        some "trusted_networks"
       ∧ auth_provider_from_config
          ⟨fun _ => true, false, fun _ => true, fun _ _ => none,
            fun _ => true, fun _ => "T"⟩ ⟨none⟩ true
          [("type", "trusted_networks")] none =
          .ok (none, some ["trusted_networks"])) :=
  ⟨⟨rfl, (auth_provider_from_config_missing_type
      ⟨fun _ => true, false, fun _ => true, fun _ _ => none,
        fun _ => true, fun _ => "T"⟩ ⟨none⟩ true [] none "z").1 rfl⟩,
   ⟨rfl, (auth_provider_from_config_missing_type
      ⟨fun _ => false, false, fun _ => true, fun _ _ => none,
        fun _ => true, fun _ => "T"⟩ ⟨none⟩ true [("type", "no_such")] none
      "no_such").2.1 rfl rfl⟩,
   ⟨rfl, (auth_provider_from_config_missing_type
      ⟨fun _ => true, false, fun _ => true, fun _ _ => none,
        fun _ => true, fun _ => "T"⟩ ⟨none⟩ true [("type", "trusted_networks")]
      none "trusted_networks").2.2 rfl rfl rfl⟩⟩

theorem procSet_mono (env : LoaderEnv) (installOk : Bool) (p t : String)
    (st : Option (List String)) (h : t ∈ procSet st) :
    t ∈ procSet (load_auth_provider_module env installOk p st).processed := by
  cases st with
  | none => simp [procSet] at h
  | some procd =>
    have h' : t ∈ procd := by simpa [procSet] using h
    by_cases h1 : env.importOk p = false
    · simpa [load_auth_provider_module, h1, procSet] using h'
    · by_cases h2 : (env.skipPip || !env.hasRequirements p) = true
      · simpa [load_auth_provider_module, h1, h2, procSet] using h'
      · by_cases h3 : p ∈ procd
        · simpa [load_auth_provider_module, h1, h2, h3, procSet] using h'
        · cases installOk with
          | false => simpa [load_auth_provider_module, h1, h2, h3, procSet] using h'
          | true =>
            simp [load_auth_provider_module, h1, h2, h3, procSet, List.mem_cons, h']

theorem runLoads_mono (env : LoaderEnv) (calls : List (String × Bool))
    (t : String) (st : Option (List String)) (h : t ∈ procSet st) :
    t ∈ procSet (runLoads env calls st) := by
  induction calls generalizing st with
  | nil => exact h
  | cons c rest ih =>
    obtain ⟨p, ok⟩ := c
    exact ih _ (procSet_mono env ok p t st h)

theorem load_success_caches (env : LoaderEnv) (t : String)
    (st : Option (List String))
    (hcall : (load_auth_provider_module env true t st).installerCalled = true) :
    t ∈ procSet (load_auth_provider_module env true t st).processed := by
  by_cases h1 : env.importOk t = false
  · simp [load_auth_provider_module, h1] at hcall
  · by_cases h2 : (env.skipPip || !env.hasRequirements t) = true
    · simp [load_auth_provider_module, h1, h2] at hcall
    · cases st with
      | none => simp [load_auth_provider_module, h1, h2, procSet]
      | some procd =>
        by_cases h3 : t ∈ procd
        · simp [load_auth_provider_module, h1, h2, h3] at hcall
        · simp [load_auth_provider_module, h1, h2, h3, procSet]

theorem load_cached_returns_module (env : LoaderEnv) (installOk : Bool)
    (t : String) (st : Option (List String))
    (himp : env.importOk t = true) (h : t ∈ procSet st) :
    load_auth_provider_module env installOk t st = ⟨some t, st, false⟩ := by
  have h1 : ¬(env.importOk t = false) := by simp [himp]
  by_cases h2 : (env.skipPip || !env.hasRequirements t) = true
  · simp [load_auth_provider_module, h1, h2]
  · cases st with
    | none => simp [procSet] at h
    | some procd =>
      have h3 : t ∈ procd := by simpa [procSet] using h
      simp [load_auth_provider_module, h1, h2, h3]

/-- C7 counterexample: with a provider type whose module imports fine and
declares requirements, a first load whose installation fails invokes the
installer, and the next load for the same type invokes the installer
again — installation is not attempted at most once per process. -/
theorem load_reinstall_counterexample :
    (load_auth_provider_module
      ⟨fun _ => true, false, fun _ => true, fun _ _ => none, fun _ => true,
        fun _ => "T"⟩ false "insecure_example" none).installerCalled = true
    ∧ (load_auth_provider_module
        ⟨fun _ => true, false, fun _ => true, fun _ _ => none, fun _ => true,
          fun _ => "T"⟩ true "insecure_example"
        (load_auth_provider_module
          ⟨fun _ => true, false, fun _ => true, fun _ _ => none, fun _ => true,
            fun _ => "T"⟩ false "insecure_example" none).processed).installerCalled
      = true := ⟨rfl, rfl⟩

/-- C7 (amended): requirement installation for a provider type is attempted
at most once after it first succeeds — once a load call for type t performs
a successful installation, every later load call for t, after any
interleaved sequence of other load calls, returns the module without
invoking the installer. A failed installation attempt is not cached and is
retried on the next call for the type. -/
theorem load_no_reinstall_after_successful_install (env : LoaderEnv)
    (t : String) (installOk : Bool) (st : Option (List String))
    (calls : List (String × Bool))
    (himp : env.importOk t = true)
    (hcall : (load_auth_provider_module env true t st).installerCalled = true) :
    (load_auth_provider_module env installOk t
      (runLoads env calls
        (load_auth_provider_module env true t st).processed)).moduleFound =
      some t
    ∧ (load_auth_provider_module env installOk t
        (runLoads env calls
          (load_auth_provider_module env true t st).processed)).installerCalled =
      false := by
  have hmem := load_success_caches env t st hcall
  have hmem2 := runLoads_mono env calls t _ hmem
  rw [load_cached_returns_module env installOk t _ himp hmem2]
  exact ⟨rfl, rfl⟩

theorem load_no_reinstall_after_successful_install_witness :
    ((LoaderEnv.mk (fun _ => true) false (fun _ => true) (fun _ _ => none)
        (fun _ => true) (fun _ => "T")).importOk "trusted_networks" = true
     ∧ (load_auth_provider_module
          ⟨fun _ => true, false, fun _ => true, fun _ _ => none, fun _ => true,
            fun _ => "T"⟩ true "trusted_networks" none).installerCalled = true)
    ∧ (load_auth_provider_module
        ⟨fun _ => true, false, fun _ => true, fun _ _ => none, fun _ => true,
          fun _ => "T"⟩ false "trusted_networks"
        (runLoads
          ⟨fun _ => true, false, fun _ => true, fun _ _ => none, fun _ => true,
            fun _ => "T"⟩
          [("homeassistant", true), ("trusted_networks", false)]
          (load_auth_provider_module
            ⟨fun _ => true, false, fun _ => true, fun _ _ => none, fun _ => true,
              fun _ => "T"⟩ true "trusted_networks" none).processed)).moduleFound =
        some "trusted_networks" :=
  ⟨⟨rfl, rfl⟩,
    (load_no_reinstall_after_successful_install
      ⟨fun _ => true, false, fun _ => true, fun _ _ => none, fun _ => true,
        fun _ => "T"⟩ "trusted_networks" false none
      [("homeassistant", true), ("trusted_networks", false)] rfl rfl).1⟩

theorem firstTrustedIdx_isSome (us : List User) (U : String)
    (hu : ∃ u ∈ us, u.system_generated = false ∧ u.is_active = true ∧ u.id = U) :
    ∃ i, firstTrustedIdx us U = some i := by
  induction us with
  | nil => obtain ⟨u, hu1, _⟩ := hu; cases hu1
  | cons v rest ih =>
    by_cases hv : v.system_generated = false ∧ v.is_active = true ∧ v.id = U
    · exact ⟨0, by simp [firstTrustedIdx, hv]⟩
    · obtain ⟨u, hu1, hu2⟩ := hu
      rcases List.mem_cons.mp hu1 with rfl | hmem
      · exact absurd hu2 hv
      · obtain ⟨j, hj⟩ := ih ⟨u, hmem, hu2⟩
        exact ⟨j + 1, by simp [firstTrustedIdx, hv, hj]⟩

theorem firstTrustedIdx_decomp (us : List User) (U : String) (i : Nat)
    (h : firstTrustedIdx us U = some i) :
    ∃ us1 u us2, us = us1 ++ u :: us2 ∧ us1.length = i ∧
      firstTrustedIdx us1 U = none ∧
      (u.system_generated = false ∧ u.is_active = true ∧ u.id = U) := by
  induction us generalizing i with
  | nil => cases h
  | cons v rest ih =>
    by_cases hv : v.system_generated = false ∧ v.is_active = true ∧ v.id = U
    · refine ⟨[], v, rest, rfl, ?_, rfl, hv⟩
      have h0 : i = 0 := by simp [firstTrustedIdx, hv] at h; omega
      simp [h0]
    · simp only [firstTrustedIdx, if_neg hv] at h
      cases hr : firstTrustedIdx rest U with
      | none => rw [hr] at h; cases h
      | some j =>
        rw [hr] at h
        simp only [Option.map_some'] at h
        injection h with h
        obtain ⟨us1, u, us2, he, hl, hn, hu⟩ := ih j hr
        refine ⟨v :: us1, u, us2, by rw [he, List.cons_append], ?_, ?_, hu⟩
        · simp [hl, ← h]
        · simp [firstTrustedIdx, if_neg hv, hn]

theorem firstTrustedIdx_append_match (us1 : List User) (u : User)
    (us2 : List User) (U : String)
    (hn : firstTrustedIdx us1 U = none)
    (hu : u.system_generated = false ∧ u.is_active = true ∧ u.id = U) :
    firstTrustedIdx (us1 ++ u :: us2) U = some us1.length := by
  induction us1 with
  | nil => simp [firstTrustedIdx, hu]
  | cons v rest ih =>
    by_cases hv : v.system_generated = false ∧ v.is_active = true ∧ v.id = U
    · simp [firstTrustedIdx, hv] at hn
    · simp only [firstTrustedIdx, if_neg hv] at hn
      cases hr : firstTrustedIdx rest U with
      | some j => rw [hr] at hn; cases hn
      | none =>
        rw [List.cons_append]
        simp only [firstTrustedIdx, if_neg hv, ih hr, Option.map_some',
          List.length_cons]

theorem linkAt_append (us1 : List User) (u : User) (us2 : List User)
    (c : Credentials) :
    linkAt (us1 ++ u :: us2) us1.length c =
      us1 ++ { u with credentials := u.credentials ++ [c] } :: us2 := by
  induction us1 with
  | nil => rfl
  | cons v rest ih =>
    simp only [List.cons_append, List.length_cons, linkAt]
    exact congrArg (List.cons v) ih

theorem async_credentials_append (p : AuthProvider) (us1 us2 : List User) :
    p.async_credentials ⟨us1 ++ us2⟩ =
      p.async_credentials ⟨us1⟩ ++ p.async_credentials ⟨us2⟩ := by
  simp [AuthProvider.async_credentials, List.flatMap_append]

theorem findMatchingCred_append_none (l1 l2 : List Credentials) (U : String)
    (h : findMatchingCred (l1 ++ l2) U = .ok none) :
    findMatchingCred l1 U = .ok none ∧ findMatchingCred l2 U = .ok none := by
  induction l1 with
  | nil => exact ⟨rfl, h⟩
  | cons c rest ih =>
    rw [List.cons_append] at h
    cases hd : dget c.data "user_id" with
    | none => simp [findMatchingCred, hd] at h
    | some v =>
      by_cases hv : v = U
      · simp [findMatchingCred, hd, hv] at h
      · have h' : findMatchingCred (rest ++ l2) U = .ok none := by
          simpa [findMatchingCred, hd, hv] using h
        obtain ⟨ha, hb⟩ := ih h'
        exact ⟨by simp [findMatchingCred, hd, hv, ha], hb⟩

theorem findMatchingCred_insert (l1 l2 : List Credentials) (c : Credentials)
    (U : String)
    (h1 : findMatchingCred l1 U = .ok none)
    (hc : dget c.data "user_id" = some U) :
    findMatchingCred (l1 ++ c :: l2) U = .ok (some c) := by
  induction l1 with
  | nil => simp [findMatchingCred, hc]
  | cons a rest ih =>
    cases hd : dget a.data "user_id" with
    | none => simp [findMatchingCred, hd] at h1
    | some v =>
      by_cases hv : v = U
      · simp [findMatchingCred, hd, hv] at h1
      · have h1' : findMatchingCred rest U = .ok none := by
          simpa [findMatchingCred, hd, hv] using h1
        rw [List.cons_append]
        simp [findMatchingCred, hd, hv, ih h1']

theorem findMatchingCred_isOk (l : List Credentials) (U : String)
    (h : ∀ c ∈ l, (dget c.data "user_id").isSome = true) :
    ∃ o, findMatchingCred l U = .ok o := by
  induction l with
  | nil => exact ⟨none, rfl⟩
  | cons c rest ih =>
    obtain ⟨v, hv⟩ :=
      Option.isSome_iff_exists.mp (h c (List.mem_cons_self c rest))
    by_cases hvu : v = U
    · exact ⟨some c, by simp [findMatchingCred, hv, hvu]⟩
    · obtain ⟨o, ho⟩ := ih fun d hd => h d (List.mem_cons_of_mem _ hd)
      exact ⟨o, by simp [findMatchingCred, hv, hvu, ho]⟩

/-- C1: for a Store containing an active, non-system user with the
requested id, and whose credentials for this provider all carry the
`user_id` data key, calling async_get_or_create_credentials twice with
flow result {user: U} returns the same credentials both times: the second
call finds the credential whose data user_id equals U among this
provider's credentials, returns it unchanged, and leaves the Store exactly
as the first call left it — no duplicate credential record is created. -/
theorem get_or_create_credentials_idempotent (p : AuthProvider)
    (s : AuthStore) (U : String)
    (hu : ∃ u ∈ s.users,
      u.system_generated = false ∧ u.is_active = true ∧ u.id = U)
    (hk : ∀ c ∈ p.async_credentials s, (dget c.data "user_id").isSome = true) :
    ∃ c s', p.async_get_or_create_credentials s [("user", U)] = (.ok c, s')
      ∧ p.async_get_or_create_credentials s' [("user", U)] = (.ok c, s') := by
  have hgu : dget [("user", U)] "user" = some U := by simp [dget]
  obtain ⟨i, hi⟩ := firstTrustedIdx_isSome s.users U hu
  obtain ⟨o, ho⟩ := findMatchingCred_isOk (p.async_credentials s) U hk
  cases o with
  | some c =>
    refine ⟨c, s, ?_, ?_⟩ <;>
      simp [AuthProvider.async_get_or_create_credentials, hgu, hi, ho]
  | none =>
    obtain ⟨us1, u, us2, he, hl, hn1, hu3⟩ := firstTrustedIdx_decomp s.users U i hi
    refine ⟨p.async_create_credentials [("user_id", U)],
      ⟨linkAt s.users i (p.async_create_credentials [("user_id", U)])⟩, ?_, ?_⟩
    · simp [AuthProvider.async_get_or_create_credentials, hgu, hi, ho]
    · have hdata : dget (p.async_create_credentials [("user_id", U)]).data
          "user_id" = some U := by
        simp [AuthProvider.async_create_credentials, dget]
      have hlink : linkAt s.users i (p.async_create_credentials [("user_id", U)]) =
          us1 ++ { u with credentials :=
            u.credentials ++ [p.async_create_credentials [("user_id", U)]] } ::
            us2 := by
        rw [he, ← hl, linkAt_append]
      have hi2 : firstTrustedIdx
          (linkAt s.users i (p.async_create_credentials [("user_id", U)])) U =
          some i := by
        rw [hlink,
          firstTrustedIdx_append_match us1
            { u with credentials :=
              u.credentials ++ [p.async_create_credentials [("user_id", U)]] }
            us2 U hn1 hu3, hl]
      have hcreds : AuthProvider.async_credentials p
          ⟨linkAt s.users i (p.async_create_credentials [("user_id", U)])⟩ =
          (p.async_credentials ⟨us1⟩ ++
            u.credentials.filter (fun c =>
              c.auth_provider_type == p.type && c.auth_provider_id == p.id)) ++
          p.async_create_credentials [("user_id", U)] ::
            p.async_credentials ⟨us2⟩ := by
        rw [hlink, async_credentials_append]
        simp [AuthProvider.async_credentials, AuthProvider.async_create_credentials,
          List.filter_append]
      have hsplit : findMatchingCred
          (p.async_credentials ⟨us1⟩ ++
            u.credentials.filter (fun c =>
              c.auth_provider_type == p.type && c.auth_provider_id == p.id)) U =
          .ok none := by
        have hor : p.async_credentials s =
            (p.async_credentials ⟨us1⟩ ++
              u.credentials.filter (fun c =>
                c.auth_provider_type == p.type && c.auth_provider_id == p.id)) ++
            p.async_credentials ⟨us2⟩ := by
          conv_lhs => rw [show s = AuthStore.mk s.users from rfl, he]
          rw [async_credentials_append, List.append_assoc]
          simp [AuthProvider.async_credentials]
        rw [hor] at ho
        exact (findMatchingCred_append_none _ _ U ho).1
      have hfound : findMatchingCred
          (AuthProvider.async_credentials p
            ⟨linkAt s.users i (p.async_create_credentials [("user_id", U)])⟩) U =
          .ok (some (p.async_create_credentials [("user_id", U)])) := by
        rw [hcreds]
        exact findMatchingCred_insert _ _ _ U hsplit hdata
      simp [AuthProvider.async_get_or_create_credentials, hgu, hi2, hfound]

theorem get_or_create_credentials_idempotent_witness :
    ((∃ u ∈ (AuthStore.mk [⟨"abc", some "Alice", false, true, []⟩]).users,
        u.system_generated = false ∧ u.is_active = true ∧ u.id = "abc")
     ∧ ∀ c ∈ AuthProvider.async_credentials
          ⟨⟨none⟩, [("type", "trusted_networks")], "Trusted Networks"⟩
          ⟨[⟨"abc", some "Alice", false, true, []⟩]⟩,
        (dget c.data "user_id").isSome = true)
    ∧ ∃ c s', AuthProvider.async_get_or_create_credentials
        ⟨⟨none⟩, [("type", "trusted_networks")], "Trusted Networks"⟩
        ⟨[⟨"abc", some "Alice", false, true, []⟩]⟩ [("user", "abc")] =
        (.ok c, s')
      ∧ AuthProvider.async_get_or_create_credentials
          ⟨⟨none⟩, [("type", "trusted_networks")], "Trusted Networks"⟩
          s' [("user", "abc")] = (.ok c, s') :=
  ⟨⟨by decide, by decide⟩,
    get_or_create_credentials_idempotent
      ⟨⟨none⟩, [("type", "trusted_networks")], "Trusted Networks"⟩
      ⟨[⟨"abc", some "Alice", false, true, []⟩]⟩ "abc" (by decide) (by decide)⟩

end HomeAssistant
